/-
Verification of the Spectrometer_Software acquisition/motion coordination core.

The definitions below are a shallow embedding of:
  * `SpectrometerApp.spectrum_update_loop` (Spectrometer_Acquire.py, lines 320-380),
    modelled one iteration at a time by `SpecApp.spectrum_update_body`;
  * `SpectrometerApp.calculate_step_number` (lines 482-489) via `SpecApp.arange`
    (the numpy `arange` semantics over ℚ) and `SpecApp.calculate_step_number`;
  * `SpectrometerApp.set_integration_time` (lines 382-397);
  * `ESP300Controller.get_motion_status` (stage_driver/esp300.py, lines 296-318);
  * the demo backend sample generation (lines 78-79 and 338-340);
  * `SpectrometerApp.close` (lines 527-543);
  * the FROG scan loop `frog_scan_loop` (lines 503-525) together with the
    acquisition loop, as an interleaved transition system `SpecApp.frogStep`.

Intensity data is modelled over ℚ (the code works with numpy float arrays;
its arithmetic here is exact so that elementwise identities are provable).
Device reads, timestamps and stage responses are inputs of each cycle.
-/
import Mathlib

set_option autoImplicit false

namespace SpecApp

/-- State of the acquisition loop thread and the cross-thread flags it reads,
mirroring the fields of `SpectrometerApp` that `spectrum_update_loop` touches. -/
structure AcqState where
  running : Bool
  paused : Bool
  request_background : Bool
  background_spectrum : Option (List ℚ)
  subtract_background : Bool
  acquiring : Bool
  acquired_spectra : List (List ℚ)
  timestamps : List ℚ
  request_frog_spectrum : Bool
  stage_values : List ℚ
  data_queue : List (List ℚ × ℚ)
  errors_reported : ℕ
  deriving Repr, DecidableEq

/-- Environment input consumed by one iteration of `spectrum_update_loop`:
the device read (`none` models an exception raised by the read), the wall-clock
timestamp, and the value `stage.get_position` would return (already `float`ed). -/
structure CycleInput where
  read : Option (List ℚ)
  ts : ℚ
  pos : ℚ
  deriving Repr, DecidableEq

/-- Lines 345-348: the one-shot background capture.  If the request flag is
set, cache *this cycle's raw* intensities (subtraction has not happened yet)
and clear the flag. -/
def captureBackgroundIfRequested (s : AcqState) (raw : List ℚ) : AcqState :=
  if s.request_background then
    { s with background_spectrum := some raw, request_background := false }
  else s

/-- Lines 350-352: elementwise `intensities - background` when subtraction is
enabled and a background is cached; no clamping anywhere. -/
def appliedIntensities (s : AcqState) (raw : List ℚ) : List ℚ :=
  if s.subtract_background then
    match s.background_spectrum with
    | some b => List.zipWith (fun x y => x - y) raw b
    | none => raw
  else raw

/-- Lines 354-357: append the sample to the acquisition buffer while
acquiring. -/
def appendIfAcquiring (s : AcqState) (ints : List ℚ) (ts : ℚ) : AcqState :=
  if s.acquiring then
    { s with acquired_spectra := s.acquired_spectra ++ [ints],
             timestamps := s.timestamps ++ [ts] }
  else s

/-- Lines 359-365: when the FROG scan requested a spectrum, append one
(intensities, timestamp, position) triple and clear the one-shot flag. -/
def serviceFrogRequest (s : AcqState) (ints : List ℚ) (ts pos : ℚ) : AcqState :=
  if s.request_frog_spectrum then
    { s with acquired_spectra := s.acquired_spectra ++ [ints],
             timestamps := s.timestamps ++ [ts],
             stage_values := s.stage_values ++ [pos],
             request_frog_spectrum := false }
  else s

/-- The non-error path of one loop iteration, in the code's statement order:
capture, subtract, acquire-append, FROG service, then clear the hand-off
queue and put the new sample (lines 345-370). -/
def processSample (s : AcqState) (raw : List ℚ) (ts pos : ℚ) : AcqState :=
  let s1 := captureBackgroundIfRequested s raw
  let ints := appliedIntensities s1 raw
  let s2 := appendIfAcquiring s1 ints ts
  let s3 := serviceFrogRequest s2 ints ts pos
  { s3 with data_queue := [(ints, ts)] }

/-- The intensities the loop publishes for a raw device sample on a given
state: background capture is serviced first, then subtraction applies. -/
def publishedIntensities (s : AcqState) (raw : List ℚ) : List ℚ :=
  appliedIntensities (captureBackgroundIfRequested s raw) raw

/-- One iteration of `spectrum_update_loop` (lines 320-380).  A stopped loop
does nothing; a paused loop sleeps and re-checks; a raising read reports the
error (`errors_reported`) and clears `running`; otherwise the sample is
processed by `processSample`. -/
def spectrum_update_body (s : AcqState) (inp : CycleInput) : AcqState :=
  if s.running = false then s
  else if s.paused then s
  else
    match inp.read with
    | none => { s with running := false, errors_reported := s.errors_reported + 1 }
    | some raw => processSample s raw inp.ts inp.pos

/-- Run the loop over a list of environment inputs, one iteration each. -/
def spectrum_update_run (s : AcqState) (inps : List CycleInput) : AcqState :=
  inps.foldl spectrum_update_body s

/-- `take_background` (lines 264-266): the UI thread only raises the request
flag; the capture itself happens inside the acquisition loop. -/
def take_background (s : AcqState) : AcqState :=
  { s with request_background := true }

/-- Numpy `arange(start, stop, step)` over ℚ for a nonzero step: the
`⌈(stop-start)/step⌉`-element grid `start, start+step, ...`. -/
def arange (start stop step : ℚ) : List ℚ :=
  (List.range (Int.ceil ((stop - start) / step)).toNat).map
    (fun i : ℕ => start + (i : ℚ) * step)

/-- `calculate_step_number` (lines 482-489): negate the step for reverse scans
(`start > stop`), then take `arange(start, stop, step)` as the position list. -/
def calculate_step_number (start stop step : ℚ) : List ℚ :=
  let step := if start > stop then -step else step
  arange start stop step

/-- Backend configuration state touched by `set_integration_time`
(lines 382-397).  `spec_type` holds the string set in `__init__`
(one of "OCEAN_OPTICS", "AVANTES", "DEMO"); each backend keeps its own
configured integration-time value in device-native units. -/
structure DevState where
  spec_type : String
  ocean_integration_micros : ℤ
  avantes_ms : ℤ
  demo_integration_time : ℤ
  loop_running : Bool
  deriving Repr, DecidableEq

/-- `set_integration_time` (lines 382-397).  The entry text is parsed with
`int(...)`; `none` models an unparseable string (ValueError from `int`).
A parsed value `≤ 0` raises ValueError before any device call; both failures
are caught, shown to the user (the returned Bool), and leave the state as is.
A valid value is forwarded: Ocean Optics receives `ms * 1000` microseconds,
Avantes receives `ms`, demo stores `ms`. -/
def set_integration_time (s : DevState) (input : Option ℤ) : DevState × Bool :=
  match input with
  | none => (s, true)
  | some ms =>
    if ms ≤ 0 then (s, true)
    else
      let s1 := if s.spec_type = "OCEAN_OPTICS" then
          { s with ocean_integration_micros := ms * 1000 } else s
      let s2 := if s1.spec_type = "AVANTES" then
          { s1 with avantes_ms := ms } else s1
      let s3 := if s2.spec_type = "DEMO" then
          { s2 with demo_integration_time := ms } else s2
      (s3, false)

/-- Python `bool(n)` on an int: false exactly at 0. -/
def pyBool (n : ℤ) : Bool := decide (n ≠ 0)

/-- `ESP300Controller.get_motion_status` (esp300.py, lines 296-318):
`not bool(int(reply))` where `reply` answers the `MD?` query (`1` = movement
done, `0` = still in motion).  `resp` is the integer parsed from the reply. -/
def get_motion_status (resp : ℤ) : Bool := ! pyBool resp

/-- Demo backend pixel count: `np.arange(1000)` / `np.random.rand(1000)`
(lines 78-79 and 338-340). -/
def demoPixelCount : ℕ := 1000

/-- Demo backend wavelength axis, `np.arange(1000)` (line 79). -/
def demoWavelengths : List ℚ :=
  (List.range demoPixelCount).map (fun i : ℕ => (i : ℚ))

/-- Demo backend intensities (line 340): `np.random.rand(1000) * t` where
`t` is the configured demo integration time; the uniform draw is the input
`noise` (each entry in `[0,1)`). -/
def demoIntensities (noise : List ℚ) (t : ℚ) : List ℚ :=
  noise.map (fun x => x * t)

/-- Shutdown-relevant state for `close` (lines 527-543): which backend string
was stored at startup, whether the loop still runs, whether each release call
has been made, and whether a stage is connected. -/
structure CloseState where
  spec_type : String
  running : Bool
  thread_joined : Bool
  ocean_closed : Bool
  avantes_deactivated : Bool
  avantes_done : Bool
  stage_connected : Bool
  stage_closed : Bool
  root_destroyed : Bool
  deriving Repr, DecidableEq

/-- `close` (lines 527-543): clear the running event, join the update thread,
then release the backend whose `spec_type` string matches — the code compares
against the literal `"OCEAN OPTICS"` (with a space) and `"AVANTES"` — then
close the stage when one is connected, and finally destroy the window. -/
def close (s : CloseState) : CloseState :=
  let s1 := { s with running := false, thread_joined := true }
  let s2 := if s1.spec_type = "OCEAN OPTICS" then { s1 with ocean_closed := true } else s1
  let s3 := if s2.spec_type = "AVANTES" then
      { s2 with avantes_deactivated := true, avantes_done := true } else s2
  let s4 := if s3.stage_connected then { s3 with stage_closed := true } else s3
  { s4 with root_destroyed := true }

/-- Control point of the `frog_scan_loop` thread (lines 503-525) within one
`for` iteration: about to issue `move_absolute` for the current position;
polling `get_motion_status`; past the motion-stop observation and the
0.2 s settle sleep; busy-waiting for the spectrum-request flag to clear;
or past the last iteration. -/
inductive FrogPhase where
  | ready
  | moving
  | settled
  | waiting
  | done
  deriving Repr, DecidableEq

/-- Combined state of the FROG scan thread and the acquisition loop:
the immutable `stage_steps` list, the loop index and control point of
`frog_scan_loop`, the position the stage was last commanded to, and the
`AcqState` shared with `spectrum_update_loop` (which holds the
`request_frog_spectrum` flag and the record buffers). -/
structure FrogState where
  positions : List ℚ
  idx : ℕ
  phase : FrogPhase
  stagePos : ℚ
  acq : AcqState
  deriving Repr, DecidableEq

/-- One scheduler step of the interleaved system.  The scan-thread actions
follow the straight-line body of `frog_scan_loop`: `move` issues
`move_absolute(motor, positions[idx])`; `stopObserved` is a motion-status
poll returning `False` (not moving) followed by the 0.2 s settle sleep;
`statusError` is a poll that raised (logged, retried next cycle, line 512);
`setFlag` sets `request_frog_spectrum`; `advance` is the busy-wait loop
observing the cleared flag and moving to the next iteration.  `acqCycle`
is one full iteration of `spectrum_update_loop`, reading `raw` at time `ts`
and answering position queries with the settled stage position. -/
inductive FrogAction where
  | move
  | stopObserved
  | statusError
  | setFlag
  | advance
  | acqCycle (raw : List ℚ) (ts : ℚ)
  deriving Repr

/-- Transition function of the interleaved FROG-scan / acquisition system.
Guards that do not hold leave the state unchanged (the corresponding thread
is simply not at that control point). -/
def frogStep (s : FrogState) (a : FrogAction) : FrogState :=
  match a with
  | .move =>
    match s.phase, s.positions[s.idx]? with
    | .ready, some p => { s with phase := .moving, stagePos := p }
    | _, _ => s
  | .stopObserved =>
    if s.phase = .moving then { s with phase := .settled } else s
  | .statusError => s
  | .setFlag =>
    if s.phase = .settled then
      { s with phase := .waiting,
               acq := { s.acq with request_frog_spectrum := true } }
    else s
  | .advance =>
    if s.phase = .waiting ∧ s.acq.request_frog_spectrum = false then
      { s with idx := s.idx + 1,
               phase := if s.idx + 1 < s.positions.length then .ready else .done }
    else s
  | .acqCycle raw ts =>
    { s with acq := spectrum_update_body s.acq ⟨some raw, ts, s.stagePos⟩ }

/-- Run the interleaved system over a schedule of actions. -/
def frogRun (s : FrogState) (tr : List FrogAction) : FrogState :=
  tr.foldl frogStep s

/-- State at `start_frog_scan` (lines 491-501): record buffers reset, the
scan thread at the top of its `for` loop (or already done when the position
list is empty), the acquisition loop running un-paused with no pending
requests — `frog_interface` (lines 468-475) has already turned acquisition
off before a scan can start. -/
def frogInit (positions : List ℚ) : FrogState :=
  { positions := positions
    idx := 0
    phase := if positions.length = 0 then .done else .ready
    stagePos := 0
    acq :=
      { running := true
        paused := false
        request_background := false
        background_spectrum := none
        subtract_background := false
        acquiring := false
        acquired_spectra := []
        timestamps := []
        request_frog_spectrum := false
        stage_values := []
        data_queue := []
        errors_reported := 0 } }

/-- Number of scan steps already recorded: the loop index, plus the current
step when its spectrum has been captured but the scan thread has not yet
advanced past the busy-wait. -/
def recordedSteps (s : FrogState) : ℕ :=
  if s.phase = .waiting ∧ s.acq.request_frog_spectrum = false then s.idx + 1 else s.idx

/-- Inductive invariant of the interleaved FROG system: records are exactly
one per completed step in step order, the three record buffers stay aligned,
the request flag is set only while the scan thread busy-waits, and during an
active step the stage sits at the commanded position. -/
def FrogInv (s : FrogState) : Prop :=
  s.acq.running = true ∧
  s.acq.paused = false ∧
  s.acq.acquiring = false ∧
  s.acq.stage_values = s.positions.take (recordedSteps s) ∧
  s.acq.acquired_spectra.length = s.acq.stage_values.length ∧
  s.acq.timestamps.length = s.acq.stage_values.length ∧
  (s.acq.request_frog_spectrum = true → s.phase = .waiting) ∧
  (s.phase = .moving ∨ s.phase = .settled ∨ s.phase = .waiting →
    s.idx < s.positions.length ∧ s.positions[s.idx]? = some s.stagePos) ∧
  (s.phase = .ready → s.idx < s.positions.length) ∧
  (s.phase = .done → s.idx = s.positions.length)

/-- A concrete running, un-paused acquisition state with a cached background
`[3]` and subtraction enabled, used to instantiate the theorems below. -/
def witnessState : AcqState :=
  { running := true
    paused := false
    request_background := false
    background_spectrum := some [3]
    subtract_background := true
    acquiring := false
    acquired_spectra := []
    timestamps := []
    request_frog_spectrum := false
    stage_values := []
    data_queue := [([7], 0)]
    errors_reported := 0 }

/-- Shutdown state of a session whose startup selected the Ocean Optics
backend (`self.spec_type = "OCEAN_OPTICS"`, line 34) with a stage connected. -/
def oceanSession : CloseState :=
  { spec_type := "OCEAN_OPTICS"
    running := true
    thread_joined := false
    ocean_closed := false
    avantes_deactivated := false
    avantes_done := false
    stage_connected := true
    stage_closed := false
    root_destroyed := false }

/-- Shutdown state of a session whose startup selected the Avantes backend
(`self.spec_type = "AVANTES"`, line 44). -/
def avantesSession : CloseState :=
  { oceanSession with spec_type := "AVANTES" }

/-- Pairwise chains over a mapped `range`, used for the monotonicity of scan
position lists. -/
theorem chain'_map_range {f : ℕ → ℚ} (R : ℚ → ℚ → Prop)
    (h : ∀ k, R (f k) (f (k + 1))) (n : ℕ) :
    ((List.range n).map f).Chain' R := by
  rw [List.chain'_map]
  cases n with
  | zero => simp
  | succ m => exact (List.chain'_range_succ _ m).mpr (fun k _ => h k)

theorem arange_length (start stop step : ℚ) :
    (arange start stop step).length = (Int.ceil ((stop - start) / step)).toNat := by
  unfold arange
  rw [List.length_map, List.length_range]

theorem arange_chain_lt (start stop step : ℚ) (h : 0 < step) :
    (arange start stop step).Chain' (· < ·) := by
  unfold arange
  refine chain'_map_range _ (fun k => ?_) _
  have hk : (k : ℚ) < (k + 1 : ℕ) := by exact_mod_cast Nat.lt_succ_self k
  have := mul_lt_mul_of_pos_right hk h
  push_cast at this ⊢
  linarith

theorem arange_chain_gt (start stop step : ℚ) (h : step < 0) :
    (arange start stop step).Chain' (· > ·) := by
  unfold arange
  refine chain'_map_range _ (fun k => ?_) _
  have hk : (k : ℚ) < (k + 1 : ℕ) := by exact_mod_cast Nat.lt_succ_self k
  have := mul_lt_mul_of_neg_right hk h
  simp only [gt_iff_lt]
  push_cast at this ⊢
  linarith

theorem arange_ne_nil (start stop step : ℚ) (h : 0 < (stop - start) / step) :
    arange start stop step ≠ [] := by
  have hpos : 0 < (Int.ceil ((stop - start) / step)).toNat := by
    have := Int.ceil_pos.mpr h
    omega
  intro hnil
  have hlen := arange_length start stop step
  rw [hnil] at hlen
  simp only [List.length_nil] at hlen
  omega

@[simp] theorem capture_running (s : AcqState) (raw : List ℚ) :
    (captureBackgroundIfRequested s raw).running = s.running := by
  unfold captureBackgroundIfRequested; split <;> rfl

@[simp] theorem capture_paused (s : AcqState) (raw : List ℚ) :
    (captureBackgroundIfRequested s raw).paused = s.paused := by
  unfold captureBackgroundIfRequested; split <;> rfl

@[simp] theorem capture_subtract (s : AcqState) (raw : List ℚ) :
    (captureBackgroundIfRequested s raw).subtract_background = s.subtract_background := by
  unfold captureBackgroundIfRequested; split <;> rfl

@[simp] theorem capture_acquiring (s : AcqState) (raw : List ℚ) :
    (captureBackgroundIfRequested s raw).acquiring = s.acquiring := by
  unfold captureBackgroundIfRequested; split <;> rfl

@[simp] theorem capture_spectra (s : AcqState) (raw : List ℚ) :
    (captureBackgroundIfRequested s raw).acquired_spectra = s.acquired_spectra := by
  unfold captureBackgroundIfRequested; split <;> rfl

@[simp] theorem capture_timestamps (s : AcqState) (raw : List ℚ) :
    (captureBackgroundIfRequested s raw).timestamps = s.timestamps := by
  unfold captureBackgroundIfRequested; split <;> rfl

@[simp] theorem capture_frog_flag (s : AcqState) (raw : List ℚ) :
    (captureBackgroundIfRequested s raw).request_frog_spectrum = s.request_frog_spectrum := by
  unfold captureBackgroundIfRequested; split <;> rfl

@[simp] theorem capture_stage_values (s : AcqState) (raw : List ℚ) :
    (captureBackgroundIfRequested s raw).stage_values = s.stage_values := by
  unfold captureBackgroundIfRequested; split <;> rfl

@[simp] theorem capture_request (s : AcqState) (raw : List ℚ) :
    (captureBackgroundIfRequested s raw).request_background = false := by
  unfold captureBackgroundIfRequested
  split
  · rfl
  · next h => simpa using h

@[simp] theorem capture_background (s : AcqState) (raw : List ℚ) :
    (captureBackgroundIfRequested s raw).background_spectrum =
      if s.request_background = true then some raw else s.background_spectrum := by
  unfold captureBackgroundIfRequested; split <;> simp_all

@[simp] theorem append_not_acquiring (s : AcqState) (ints : List ℚ) (ts : ℚ)
    (h : s.acquiring = false) : appendIfAcquiring s ints ts = s := by
  simp [appendIfAcquiring, h]

@[simp] theorem serviceFrog_true (s : AcqState) (ints : List ℚ) (ts pos : ℚ)
    (h : s.request_frog_spectrum = true) :
    serviceFrogRequest s ints ts pos =
      { s with acquired_spectra := s.acquired_spectra ++ [ints],
               timestamps := s.timestamps ++ [ts],
               stage_values := s.stage_values ++ [pos],
               request_frog_spectrum := false } := by
  simp [serviceFrogRequest, h]

@[simp] theorem serviceFrog_false (s : AcqState) (ints : List ℚ) (ts pos : ℚ)
    (h : s.request_frog_spectrum = false) :
    serviceFrogRequest s ints ts pos = s := by
  simp [serviceFrogRequest, h]

@[simp] theorem serviceFrog_background (s : AcqState) (ints : List ℚ) (ts pos : ℚ) :
    (serviceFrogRequest s ints ts pos).background_spectrum = s.background_spectrum := by
  unfold serviceFrogRequest; split <;> rfl

@[simp] theorem serviceFrog_request (s : AcqState) (ints : List ℚ) (ts pos : ℚ) :
    (serviceFrogRequest s ints ts pos).request_background = s.request_background := by
  unfold serviceFrogRequest; split <;> rfl

@[simp] theorem serviceFrog_running (s : AcqState) (ints : List ℚ) (ts pos : ℚ) :
    (serviceFrogRequest s ints ts pos).running = s.running := by
  unfold serviceFrogRequest; split <;> rfl

@[simp] theorem serviceFrog_paused (s : AcqState) (ints : List ℚ) (ts pos : ℚ) :
    (serviceFrogRequest s ints ts pos).paused = s.paused := by
  unfold serviceFrogRequest; split <;> rfl

@[simp] theorem serviceFrog_acquiring (s : AcqState) (ints : List ℚ) (ts pos : ℚ) :
    (serviceFrogRequest s ints ts pos).acquiring = s.acquiring := by
  unfold serviceFrogRequest; split <;> rfl

@[simp] theorem serviceFrog_subtract (s : AcqState) (ints : List ℚ) (ts pos : ℚ) :
    (serviceFrogRequest s ints ts pos).subtract_background = s.subtract_background := by
  unfold serviceFrogRequest; split <;> rfl

theorem spectrum_update_body_stopped (s : AcqState) (inp : CycleInput)
    (hr : s.running = false) : spectrum_update_body s inp = s := by
  simp [spectrum_update_body, hr]

theorem spectrum_update_body_some (s : AcqState) (inp : CycleInput) (raw : List ℚ)
    (hr : s.running = true) (hp : s.paused = false) (hread : inp.read = some raw) :
    spectrum_update_body s inp = processSample s raw inp.ts inp.pos := by
  simp [spectrum_update_body, hr, hp, hread]

theorem spectrum_update_body_none (s : AcqState) (inp : CycleInput)
    (hr : s.running = true) (hp : s.paused = false) (hread : inp.read = none) :
    spectrum_update_body s inp =
      { s with running := false, errors_reported := s.errors_reported + 1 } := by
  simp [spectrum_update_body, hr, hp, hread]

theorem spectrum_update_run_stopped (s : AcqState) (inps : List CycleInput)
    (hr : s.running = false) : spectrum_update_run s inps = s := by
  induction inps with
  | nil => rfl
  | cons inp rest ih =>
    unfold spectrum_update_run at ih ⊢
    rw [List.foldl_cons, spectrum_update_body_stopped s inp hr]
    exact ih

theorem processSample_queue (s : AcqState) (raw : List ℚ) (ts pos : ℚ) :
    (processSample s raw ts pos).data_queue = [(publishedIntensities s raw, ts)] := rfl

@[simp] theorem append_background (s : AcqState) (ints : List ℚ) (ts : ℚ) :
    (appendIfAcquiring s ints ts).background_spectrum = s.background_spectrum := by
  unfold appendIfAcquiring; split <;> rfl

@[simp] theorem append_request (s : AcqState) (ints : List ℚ) (ts : ℚ) :
    (appendIfAcquiring s ints ts).request_background = s.request_background := by
  unfold appendIfAcquiring; split <;> rfl

@[simp] theorem append_running (s : AcqState) (ints : List ℚ) (ts : ℚ) :
    (appendIfAcquiring s ints ts).running = s.running := by
  unfold appendIfAcquiring; split <;> rfl

@[simp] theorem append_paused (s : AcqState) (ints : List ℚ) (ts : ℚ) :
    (appendIfAcquiring s ints ts).paused = s.paused := by
  unfold appendIfAcquiring; split <;> rfl

@[simp] theorem append_acquiring (s : AcqState) (ints : List ℚ) (ts : ℚ) :
    (appendIfAcquiring s ints ts).acquiring = s.acquiring := by
  unfold appendIfAcquiring; split <;> rfl

@[simp] theorem append_frog_flag (s : AcqState) (ints : List ℚ) (ts : ℚ) :
    (appendIfAcquiring s ints ts).request_frog_spectrum = s.request_frog_spectrum := by
  unfold appendIfAcquiring; split <;> rfl

@[simp] theorem append_stage_values (s : AcqState) (ints : List ℚ) (ts : ℚ) :
    (appendIfAcquiring s ints ts).stage_values = s.stage_values := by
  unfold appendIfAcquiring; split <;> rfl

@[simp] theorem append_subtract (s : AcqState) (ints : List ℚ) (ts : ℚ) :
    (appendIfAcquiring s ints ts).subtract_background = s.subtract_background := by
  unfold appendIfAcquiring; split <;> rfl

theorem processSample_running (s : AcqState) (raw : List ℚ) (ts pos : ℚ) :
    (processSample s raw ts pos).running = s.running := by
  simp [processSample]

theorem processSample_paused (s : AcqState) (raw : List ℚ) (ts pos : ℚ) :
    (processSample s raw ts pos).paused = s.paused := by
  simp [processSample]

theorem processSample_acquiring (s : AcqState) (raw : List ℚ) (ts pos : ℚ) :
    (processSample s raw ts pos).acquiring = s.acquiring := by
  simp [processSample]

theorem processSample_background (s : AcqState) (raw : List ℚ) (ts pos : ℚ) :
    (processSample s raw ts pos).background_spectrum =
      if s.request_background = true then some raw else s.background_spectrum := by
  simp [processSample]

theorem processSample_request (s : AcqState) (raw : List ℚ) (ts pos : ℚ) :
    (processSample s raw ts pos).request_background = false := by
  simp [processSample]

theorem processSample_frog_true (s : AcqState) (raw : List ℚ) (ts pos : ℚ)
    (ha : s.acquiring = false) (hf : s.request_frog_spectrum = true) :
    (processSample s raw ts pos).stage_values = s.stage_values ++ [pos]
    ∧ (processSample s raw ts pos).acquired_spectra
        = s.acquired_spectra ++ [publishedIntensities s raw]
    ∧ (processSample s raw ts pos).timestamps = s.timestamps ++ [ts]
    ∧ (processSample s raw ts pos).request_frog_spectrum = false := by
  refine ⟨?_, ?_, ?_, ?_⟩ <;> simp [processSample, publishedIntensities, ha, hf]

theorem processSample_frog_false (s : AcqState) (raw : List ℚ) (ts pos : ℚ)
    (ha : s.acquiring = false) (hf : s.request_frog_spectrum = false) :
    (processSample s raw ts pos).stage_values = s.stage_values
    ∧ (processSample s raw ts pos).acquired_spectra = s.acquired_spectra
    ∧ (processSample s raw ts pos).timestamps = s.timestamps
    ∧ (processSample s raw ts pos).request_frog_spectrum = false := by
  refine ⟨?_, ?_, ?_, ?_⟩ <;> simp [processSample, ha, hf]

theorem capture_not_requested (s : AcqState) (raw : List ℚ)
    (h : s.request_background = false) :
    captureBackgroundIfRequested s raw = s := by
  simp [captureBackgroundIfRequested, h]

theorem publishedIntensities_subtract (s : AcqState) (raw b : List ℚ)
    (hreq : s.request_background = false) (hsub : s.subtract_background = true)
    (hbg : s.background_spectrum = some b) :
    publishedIntensities s raw = List.zipWith (fun x y => x - y) raw b := by
  rw [publishedIntensities, capture_not_requested s raw hreq]
  simp [appliedIntensities, hsub, hbg]

/-! ### Claim theorems -/

/-- C2: While background subtraction is enabled, a background `b` is cached
and no new capture is pending, the sample published by an acquisition cycle
has intensities `raw - b`, elementwise with no clamping, and the cached
background survives the cycle unchanged; and capturing a background again with
identical raw input is idempotent (the cache holds `raw` after one capture and
still after a repeated capture). -/
theorem background_subtraction_published
    (s : AcqState) (inp : CycleInput) (raw b : List ℚ)
    (hr : s.running = true) (hp : s.paused = false)
    (hreq : s.request_background = false)
    (hsub : s.subtract_background = true)
    (hbg : s.background_spectrum = some b)
    (hread : inp.read = some raw) :
    (spectrum_update_body s inp).data_queue
        = [(List.zipWith (fun x y => x - y) raw b, inp.ts)]
    ∧ (spectrum_update_body s inp).background_spectrum = some b
    ∧ (∀ (i : ℕ) (h1 : i < raw.length) (h2 : i < b.length),
        (List.zipWith (fun x y => x - y) raw b)[i]?
          = some (raw.get ⟨i, h1⟩ - b.get ⟨i, h2⟩))
    ∧ (∀ (s2 : AcqState) (inp2 : CycleInput),
        s2.running = true → s2.paused = false → inp2.read = some raw →
        (spectrum_update_body (take_background s2) inp2).background_spectrum = some raw
        ∧ (spectrum_update_body (take_background
              (spectrum_update_body (take_background s2) inp2)) inp2).background_spectrum
            = (spectrum_update_body (take_background s2) inp2).background_spectrum) := by
  have hbody := spectrum_update_body_some s inp raw hr hp hread
  refine ⟨?_, ?_, ?_, ?_⟩
  · rw [hbody, processSample_queue, publishedIntensities_subtract s raw b hreq hsub hbg]
  · rw [hbody, processSample_background]
    simp [hreq, hbg]
  · intro i h1 h2
    rw [List.getElem?_zipWith]
    rw [List.getElem?_eq_getElem h1, List.getElem?_eq_getElem h2]
    simp [List.get_eq_getElem]
  · intro s2 inp2 hr2 hp2 hread2
    have hrt : (take_background s2).running = true := hr2
    have hpt : (take_background s2).paused = false := hp2
    have hb1 := spectrum_update_body_some (take_background s2) inp2 raw hrt hpt hread2
    have hfirst : (spectrum_update_body (take_background s2) inp2).background_spectrum
        = some raw := by
      rw [hb1, processSample_background]
      simp [take_background]
    refine ⟨hfirst, ?_⟩
    have hr3 : (take_background (spectrum_update_body (take_background s2) inp2)).running
        = true := by
      show (spectrum_update_body (take_background s2) inp2).running = true
      rw [hb1, processSample_running]
      exact hr2
    have hp3 : (take_background (spectrum_update_body (take_background s2) inp2)).paused
        = false := by
      show (spectrum_update_body (take_background s2) inp2).paused = false
      rw [hb1, processSample_paused]
      exact hp2
    have hb2 := spectrum_update_body_some
      (take_background (spectrum_update_body (take_background s2) inp2)) inp2 raw hr3 hp3 hread2
    rw [hb2, processSample_background, hfirst]
    simp [take_background]

/-- Witness for C2 at a concrete state: background `[3]`, raw `[1]`, so the
published intensities are `[1 - 3]` — negative and unclamped. -/
theorem background_subtraction_published_witness :
    witnessState.subtract_background = true
    ∧ witnessState.background_spectrum = some [3]
    ∧ (spectrum_update_body witnessState ⟨some [1], 2, 0⟩).data_queue
        = [([(1 : ℚ) - 3], 2)]
    ∧ (1 : ℚ) - 3 < 0 := by
  refine ⟨rfl, rfl, ?_, by norm_num⟩
  exact (background_subtraction_published witnessState ⟨some [1], 2, 0⟩ [1] [3]
    rfl rfl rfl rfl rfl rfl).1

/-- C4: After every publish step of a (running, un-paused) acquisition cycle,
the display hand-off queue holds exactly one element — this cycle's sample —
whatever the queue held before: the loop clears the queue and then puts. -/
theorem display_handoff_single_slot
    (s : AcqState) (inp : CycleInput) (raw : List ℚ)
    (hr : s.running = true) (hp : s.paused = false) (hread : inp.read = some raw) :
    (spectrum_update_body s inp).data_queue = [(publishedIntensities s raw, inp.ts)]
    ∧ (spectrum_update_body s inp).data_queue.length = 1 := by
  have hbody := spectrum_update_body_some s inp raw hr hp hread
  rw [hbody, processSample_queue]
  exact ⟨rfl, rfl⟩

/-- Witness for C4 at a concrete state whose queue already holds an unread
sample: after the cycle the queue is exactly the fresh sample. -/
theorem display_handoff_single_slot_witness :
    witnessState.data_queue = [([7], 0)]
    ∧ (spectrum_update_body witnessState ⟨some [1], 5, 0⟩).data_queue
        = [(publishedIntensities witnessState [1], 5)] := by
  refine ⟨rfl, ?_⟩
  exact (display_handoff_single_slot witnessState ⟨some [1], 5, 0⟩ [1] rfl rfl rfl).1

/-- C5: An error raised by the device read in a running, un-paused cycle is
reported (the error counter increments), the loop terminates on that cycle
with `running` cleared and no other state touched, and no later cycle does
anything — the loop is not restarted automatically. -/
theorem read_error_terminates_loop
    (s : AcqState) (inp : CycleInput)
    (hr : s.running = true) (hp : s.paused = false) (hread : inp.read = none) :
    spectrum_update_body s inp
        = { s with running := false, errors_reported := s.errors_reported + 1 }
    ∧ (spectrum_update_body s inp).running = false
    ∧ (spectrum_update_body s inp).errors_reported = s.errors_reported + 1
    ∧ ∀ inps : List CycleInput,
        spectrum_update_run (spectrum_update_body s inp) inps
          = spectrum_update_body s inp := by
  have h := spectrum_update_body_none s inp hr hp hread
  refine ⟨h, by rw [h], by rw [h], ?_⟩
  intro inps
  apply spectrum_update_run_stopped
  rw [h]

/-- Witness for C5: a failing read on the concrete state clears `running` and
freezes all later cycles. -/
theorem read_error_terminates_loop_witness :
    witnessState.running = true
    ∧ (spectrum_update_body witnessState ⟨none, 0, 0⟩).running = false
    ∧ spectrum_update_run (spectrum_update_body witnessState ⟨none, 0, 0⟩)
        [⟨some [1], 1, 0⟩, ⟨some [2], 2, 0⟩]
        = spectrum_update_body witnessState ⟨none, 0, 0⟩ := by
  have h := read_error_terminates_loop witnessState ⟨none, 0, 0⟩ rfl rfl rfl
  exact ⟨rfl, h.2.1, h.2.2.2 [⟨some [1], 1, 0⟩, ⟨some [2], 2, 0⟩]⟩

/-- C10: A pending background-capture request is serviced before subtraction:
after the cycle the cache holds this cycle's *raw* intensities (never an
already-subtracted trace, so repeated captures cannot compound), the one-shot
flag is cleared, and the published sample is subtracted against the freshly
captured background. -/
theorem background_capture_uses_raw
    (s : AcqState) (inp : CycleInput) (raw : List ℚ)
    (hr : s.running = true) (hp : s.paused = false)
    (hreq : s.request_background = true) (hread : inp.read = some raw) :
    (spectrum_update_body s inp).background_spectrum = some raw
    ∧ (spectrum_update_body s inp).request_background = false
    ∧ (spectrum_update_body s inp).data_queue
        = [(if s.subtract_background = true
             then List.zipWith (fun x y => x - y) raw raw else raw, inp.ts)] := by
  have hbody := spectrum_update_body_some s inp raw hr hp hread
  refine ⟨?_, ?_, ?_⟩
  · rw [hbody, processSample_background]
    simp [hreq]
  · rw [hbody, processSample_request]
  · rw [hbody, processSample_queue]
    rw [publishedIntensities]
    simp [captureBackgroundIfRequested, hreq, appliedIntensities]

/-- Witness for C10 at a concrete state that already has a *different*
background `[3]` and subtraction enabled: the cache afterwards is the raw
`[5]`, not `[5] - [3]`. -/
theorem background_capture_uses_raw_witness :
    (take_background witnessState).request_background = true
    ∧ (spectrum_update_body (take_background witnessState) ⟨some [5], 1, 0⟩).background_spectrum
        = some [5] := by
  refine ⟨rfl, ?_⟩
  exact (background_capture_uses_raw (take_background witnessState) ⟨some [5], 1, 0⟩ [5]
    rfl rfl rfl rfl).1

/-- C3: For positive step the computed position list is `arange(start, stop,
step)`, and when `start > stop` the step is implicitly negated, the list is
never empty and strictly decreasing; ascending scans are strictly increasing.
In particular `start=10, stop=11, step=0.1` yields exactly 10 increasing
positions and `start=11, stop=10, step=0.1` yields 10 decreasing positions. -/
theorem calculate_step_number_spec (start stop step : ℚ) (hstep : 0 < step) :
    (start ≤ stop →
        calculate_step_number start stop step = arange start stop step
        ∧ (calculate_step_number start stop step).Chain' (· < ·))
    ∧ (stop < start →
        calculate_step_number start stop step = arange start stop (-step)
        ∧ calculate_step_number start stop step ≠ []
        ∧ (calculate_step_number start stop step).Chain' (· > ·))
    ∧ (calculate_step_number 10 11 (1/10)).length = 10
    ∧ (calculate_step_number 10 11 (1/10)).Chain' (· < ·)
    ∧ (calculate_step_number 11 10 (1/10)).length = 10
    ∧ (calculate_step_number 11 10 (1/10)).Chain' (· > ·) := by
  have hforward : ∀ u v w : ℚ, 0 < w → u ≤ v →
      calculate_step_number u v w = arange u v w := by
    intro u v w _ huv
    unfold calculate_step_number
    rw [if_neg (not_lt.mpr huv)]
  have hreverse : ∀ u v w : ℚ, v < u →
      calculate_step_number u v w = arange u v (-w) := by
    intro u v w huv
    unfold calculate_step_number
    rw [if_pos huv]
  refine ⟨?_, ?_, ?_, ?_, ?_, ?_⟩
  · intro h
    refine ⟨hforward start stop step hstep h, ?_⟩
    rw [hforward start stop step hstep h]
    exact arange_chain_lt start stop step hstep
  · intro h
    refine ⟨hreverse start stop step h, ?_, ?_⟩
    · rw [hreverse start stop step h]
      apply arange_ne_nil
      rw [div_pos_iff]
      exact Or.inr ⟨by linarith, by linarith⟩
    · rw [hreverse start stop step h]
      exact arange_chain_gt start stop (-step) (by linarith)
  · rw [hforward 10 11 (1/10) (by norm_num) (by norm_num), arange_length]
    norm_num
    decide
  · rw [hforward 10 11 (1/10) (by norm_num) (by norm_num)]
    exact arange_chain_lt 10 11 (1/10) (by norm_num)
  · rw [hreverse 11 10 (1/10) (by norm_num), arange_length]
    norm_num
    decide
  · rw [hreverse 11 10 (1/10) (by norm_num)]
    exact arange_chain_gt 11 10 (-(1/10)) (by norm_num)

/-- Witness for C3 at the claim's own parameters. -/
theorem calculate_step_number_spec_witness :
    (0 : ℚ) < 1/10
    ∧ (10 : ℚ) ≤ 11
    ∧ calculate_step_number 10 11 (1/10) = arange 10 11 (1/10)
    ∧ (calculate_step_number 10 11 (1/10)).length = 10 := by
  have h := calculate_step_number_spec 10 11 (1/10) (by norm_num)
  exact ⟨by norm_num, by norm_num, (h.1 (by norm_num)).1, h.2.2.1⟩

/-- C6: `set_integration_time` rejects an unparseable entry or a value
`ms ≤ 0` before touching any device — the state is returned unchanged and the
error is reported — while a valid `ms > 0` on the Ocean Optics backend is
forwarded as `ms * 1000` microseconds. -/
theorem set_integration_time_spec (s : DevState) (ms : ℤ) :
    set_integration_time s none = (s, true)
    ∧ (ms ≤ 0 → set_integration_time s (some ms) = (s, true))
    ∧ (0 < ms → s.spec_type = "OCEAN_OPTICS" →
        set_integration_time s (some ms)
          = ({ s with ocean_integration_micros := ms * 1000 }, false)) := by
  refine ⟨rfl, ?_, ?_⟩
  · intro h
    simp [set_integration_time, h]
  · intro h hty
    have hne1 : ("OCEAN_OPTICS" : String) ≠ "AVANTES" := by decide
    have hne2 : ("OCEAN_OPTICS" : String) ≠ "DEMO" := by decide
    simp [set_integration_time, not_le.mpr h, hty, hne1, hne2]

/-- Witness for C6: `ms = 0` is rejected with the state unchanged; `ms = 100`
on Ocean Optics configures 100000 microseconds. -/
theorem set_integration_time_spec_witness :
    (0 : ℤ) ≤ 0
    ∧ (0 : ℤ) < 100
    ∧ set_integration_time
        ⟨"OCEAN_OPTICS", 100000, 100, 100, true⟩ (some 0)
        = (⟨"OCEAN_OPTICS", 100000, 100, 100, true⟩, true)
    ∧ set_integration_time
        ⟨"OCEAN_OPTICS", 100000, 100, 100, true⟩ (some 100)
        = (⟨"OCEAN_OPTICS", 100 * 1000, 100, 100, true⟩, false) := by
  have h0 := set_integration_time_spec ⟨"OCEAN_OPTICS", 100000, 100, 100, true⟩ 0
  have h100 := set_integration_time_spec ⟨"OCEAN_OPTICS", 100000, 100, 100, true⟩ 100
  exact ⟨le_refl 0, by norm_num, h0.2.1 (le_refl 0), h100.2.2 (by norm_num) rfl⟩

/-- C7: `get_motion_status` parses the `MD?` reply (1 = movement done,
0 = still moving) and inverts it, so the returned Bool is `true` exactly when
the axis is still moving. -/
theorem get_motion_status_inverts (resp : ℤ) (h : resp = 0 ∨ resp = 1) :
    (get_motion_status resp = true ↔ resp = 0)
    ∧ (get_motion_status resp = false ↔ resp = 1) := by
  rcases h with h | h <;> subst h <;>
    exact ⟨by simp [get_motion_status, pyBool], by simp [get_motion_status, pyBool]⟩

/-- Witness for C7: a controller reply of `1` (movement done) reads back as
not moving. -/
theorem get_motion_status_inverts_witness :
    ((1 : ℤ) = 0 ∨ (1 : ℤ) = 1)
    ∧ (get_motion_status 1 = false ↔ (1 : ℤ) = 1) :=
  ⟨Or.inr rfl, (get_motion_status_inverts 1 (Or.inr rfl)).2⟩

/-- C8: A demo-backend sample with configured integration time `t > 0` has
wavelengths `0..N-1` for the demo pixel count `N = 1000` and every intensity
in `[0, t)`, being a uniform draw in `[0, 1)` scaled by `t`. -/
theorem demo_backend_sample_spec (noise : List ℚ) (t : ℚ) (ht : 0 < t)
    (hn : ∀ x ∈ noise, 0 ≤ x ∧ x < 1)
    (hlen : noise.length = demoPixelCount) :
    demoWavelengths.length = demoPixelCount
    ∧ (∀ i : ℕ, i < demoPixelCount → demoWavelengths[i]? = some (i : ℚ))
    ∧ (demoIntensities noise t).length = demoPixelCount
    ∧ (∀ y ∈ demoIntensities noise t, 0 ≤ y ∧ y < t) := by
  refine ⟨?_, ?_, ?_, ?_⟩
  · simp [demoWavelengths]
  · intro i hi
    simp [demoWavelengths, List.getElem?_map, List.getElem?_range, hi]
  · simp [demoIntensities, hlen]
  · intro y hy
    simp only [demoIntensities, List.mem_map] at hy
    obtain ⟨x, hx, rfl⟩ := hy
    obtain ⟨hx0, hx1⟩ := hn x hx
    exact ⟨mul_nonneg hx0 (le_of_lt ht), mul_lt_of_lt_one_left ht hx1⟩

/-- Witness for C8 on the all-zero uniform draw at `t = 100`. -/
theorem demo_backend_sample_spec_witness :
    (0 : ℚ) < 100
    ∧ (List.replicate demoPixelCount (0 : ℚ)).length = demoPixelCount
    ∧ demoWavelengths[5]? = some ((5 : ℕ) : ℚ)
    ∧ (∀ y ∈ demoIntensities (List.replicate demoPixelCount (0 : ℚ)) 100,
        0 ≤ y ∧ y < 100) := by
  have h := demo_backend_sample_spec (List.replicate demoPixelCount (0 : ℚ)) 100
    (by norm_num)
    (by intro x hx; rw [List.eq_of_mem_replicate hx]; norm_num)
    (by simp)
  exact ⟨by norm_num, by simp, h.2.1 5 (by decide), h.2.2.2⟩

/-- C9 (divergence witness): `close` compares `spec_type` against the literal
`"OCEAN OPTICS"` (line 532, with a space) while startup stores
`"OCEAN_OPTICS"` (line 34, with an underscore), so on an Ocean Optics session
the spectrometer handle is never released even though the loop is stopped, the
thread joined, the stage closed and the window destroyed; on an Avantes
session the deactivate+done release does happen. -/
theorem close_ocean_optics_handle_not_released :
    (close oceanSession).running = false
    ∧ (close oceanSession).thread_joined = true
    ∧ (close oceanSession).ocean_closed = false
    ∧ (close oceanSession).stage_closed = true
    ∧ (close oceanSession).root_destroyed = true
    ∧ (close avantesSession).avantes_deactivated = true
    ∧ (close avantesSession).avantes_done = true := by
  refine ⟨rfl, rfl, ?_, ?_, rfl, ?_, ?_⟩ <;> decide

theorem frogStep_positions (s : FrogState) (a : FrogAction) :
    (frogStep s a).positions = s.positions := by
  cases a with
  | move =>
    rcases hph : s.phase <;> rcases hat : s.positions[s.idx]? <;>
      simp [frogStep, hph, hat]
  | stopObserved => simp only [frogStep]; split <;> rfl
  | statusError => rfl
  | setFlag => simp only [frogStep]; split <;> rfl
  | advance => simp only [frogStep]; split <;> rfl
  | acqCycle raw ts => rfl

theorem frogRun_positions (s : FrogState) (tr : List FrogAction) :
    (frogRun s tr).positions = s.positions := by
  induction tr generalizing s with
  | nil => rfl
  | cons a rest ih =>
    have h1 : frogRun s (a :: rest) = frogRun (frogStep s a) rest := rfl
    rw [h1, ih (frogStep s a), frogStep_positions]

theorem frogInv_init (positions : List ℚ) : FrogInv (frogInit positions) := by
  by_cases h : positions.length = 0 <;>
    (simp [FrogInv, frogInit, recordedSteps, h]; try omega)

theorem frogInv_step (s : FrogState) (a : FrogAction) (h : FrogInv s) :
    FrogInv (frogStep s a) := by
  obtain ⟨hrun, hpau, hacq, hvals, hspec, hts, hflag, hactive, hready, hdone⟩ := h
  have hs : FrogInv s :=
    ⟨hrun, hpau, hacq, hvals, hspec, hts, hflag, hactive, hready, hdone⟩
  cases a with
  | statusError => exact hs
  | move =>
    by_cases hph : s.phase = FrogPhase.ready
    · rcases hat : s.positions[s.idx]? with _ | p
      · have hstep : frogStep s FrogAction.move = s := by simp [frogStep, hph, hat]
        rw [hstep]; exact hs
      · have hstep : frogStep s FrogAction.move
            = { s with phase := FrogPhase.moving, stagePos := p } := by
          simp [frogStep, hph, hat]
        rw [hstep]
        refine ⟨hrun, hpau, hacq, ?_, hspec, hts, ?_, ?_, ?_, ?_⟩
        · have h1 : recordedSteps { s with phase := FrogPhase.moving, stagePos := p }
              = s.idx := by simp [recordedSteps]
          have h2 : recordedSteps s = s.idx := by simp [recordedSteps, hph]
          rw [h1, ← h2]; exact hvals
        · intro hf
          have hcon := hflag hf
          rw [hph] at hcon
          exact absurd hcon (by decide)
        · intro _
          exact ⟨hready hph, hat⟩
        · intro hcon; simp at hcon
        · intro hcon; simp at hcon
    · have hstep : frogStep s FrogAction.move = s := by
        simp only [frogStep]
        rcases hq : s.phase <;> rcases s.positions[s.idx]? <;> simp_all
      rw [hstep]; exact hs
  | stopObserved =>
    by_cases hph : s.phase = FrogPhase.moving
    · have hstep : frogStep s FrogAction.stopObserved
          = { s with phase := FrogPhase.settled } := by simp [frogStep, hph]
      rw [hstep]
      refine ⟨hrun, hpau, hacq, ?_, hspec, hts, ?_, ?_, ?_, ?_⟩
      · have h1 : recordedSteps { s with phase := FrogPhase.settled } = s.idx := by
          simp [recordedSteps]
        have h2 : recordedSteps s = s.idx := by simp [recordedSteps, hph]
        rw [h1, ← h2]; exact hvals
      · intro hf
        have hcon := hflag hf
        rw [hph] at hcon
        exact absurd hcon (by decide)
      · intro _
        exact hactive (Or.inl hph)
      · intro hcon; simp at hcon
      · intro hcon; simp at hcon
    · have hstep : frogStep s FrogAction.stopObserved = s := by simp [frogStep, hph]
      rw [hstep]; exact hs
  | setFlag =>
    by_cases hph : s.phase = FrogPhase.settled
    · have hstep : frogStep s FrogAction.setFlag
          = { s with phase := FrogPhase.waiting,
                     acq := { s.acq with request_frog_spectrum := true } } := by
        simp [frogStep, hph]
      rw [hstep]
      refine ⟨hrun, hpau, hacq, ?_, hspec, hts, ?_, ?_, ?_, ?_⟩
      · have h1 : recordedSteps { s with phase := FrogPhase.waiting,
                                         acq := { s.acq with request_frog_spectrum := true } }
            = s.idx := by
          simp [recordedSteps]
        have h2 : recordedSteps s = s.idx := by simp [recordedSteps, hph]
        rw [h1, ← h2]; exact hvals
      · intro _; rfl
      · intro _
        exact hactive (Or.inr (Or.inl hph))
      · intro hcon; simp at hcon
      · intro hcon; simp at hcon
    · have hstep : frogStep s FrogAction.setFlag = s := by simp [frogStep, hph]
      rw [hstep]; exact hs
  | advance =>
    by_cases hc : s.phase = FrogPhase.waiting ∧ s.acq.request_frog_spectrum = false
    · have hstep : frogStep s FrogAction.advance
          = { s with idx := s.idx + 1,
                     phase := if s.idx + 1 < s.positions.length then FrogPhase.ready
                              else FrogPhase.done } := by
        simp [frogStep, hc]
      obtain ⟨hw, hf⟩ := hc
      have hidx : s.idx < s.positions.length := (hactive (Or.inr (Or.inr hw))).1
      have hrs : recordedSteps s = s.idx + 1 := by simp [recordedSteps, hw, hf]
      rw [hstep]
      by_cases hlen : s.idx + 1 < s.positions.length
      · rw [if_pos hlen]
        refine ⟨hrun, hpau, hacq, ?_, hspec, hts, ?_, ?_, ?_, ?_⟩
        · have h1 : recordedSteps { s with idx := s.idx + 1, phase := FrogPhase.ready }
              = s.idx + 1 := by simp [recordedSteps]
          rw [h1, ← hrs]; exact hvals
        · intro hfcon; exact absurd hfcon (by simp [hf])
        · intro hcon
          rcases hcon with hcon | hcon | hcon <;> simp at hcon
        · intro _; exact hlen
        · intro hcon; simp at hcon
      · rw [if_neg hlen]
        refine ⟨hrun, hpau, hacq, ?_, hspec, hts, ?_, ?_, ?_, ?_⟩
        · have h1 : recordedSteps { s with idx := s.idx + 1, phase := FrogPhase.done }
              = s.idx + 1 := by simp [recordedSteps]
          rw [h1, ← hrs]; exact hvals
        · intro hfcon; exact absurd hfcon (by simp [hf])
        · intro hcon
          rcases hcon with hcon | hcon | hcon <;> simp at hcon
        · intro hcon; simp at hcon
        · intro _
          show s.idx + 1 = s.positions.length
          omega
    · have hstep : frogStep s FrogAction.advance = s := by simp [frogStep, hc]
      rw [hstep]; exact hs
  | acqCycle raw ts =>
    have hstep : frogStep s (FrogAction.acqCycle raw ts)
        = { s with acq := spectrum_update_body s.acq ⟨some raw, ts, s.stagePos⟩ } := rfl
    have hbody := spectrum_update_body_some s.acq ⟨some raw, ts, s.stagePos⟩ raw hrun hpau rfl
    rw [hstep, hbody]
    by_cases hf : s.acq.request_frog_spectrum = true
    · have hw := hflag hf
      obtain ⟨hlt, hpos⟩ := hactive (Or.inr (Or.inr hw))
      obtain ⟨hsv, hsp, htm, hfc⟩ := processSample_frog_true s.acq raw ts s.stagePos hacq hf
      have hv : s.acq.stage_values = s.positions.take s.idx := by
        have h2 : recordedSteps s = s.idx := by simp [recordedSteps, hf]
        rw [hvals, h2]
      refine ⟨?_, ?_, ?_, ?_, ?_, ?_, ?_, ?_, ?_, ?_⟩
      · show (processSample s.acq raw ts s.stagePos).running = true
        rw [processSample_running]; exact hrun
      · show (processSample s.acq raw ts s.stagePos).paused = false
        rw [processSample_paused]; exact hpau
      · show (processSample s.acq raw ts s.stagePos).acquiring = false
        rw [processSample_acquiring]; exact hacq
      · show (processSample s.acq raw ts s.stagePos).stage_values
          = s.positions.take (recordedSteps
              { s with acq := processSample s.acq raw ts s.stagePos })
        have h1 : recordedSteps { s with acq := processSample s.acq raw ts s.stagePos }
            = s.idx + 1 := by simp [recordedSteps, hw, hfc]
        rw [h1, hsv, hv, List.take_succ, hpos]
        rfl
      · show (processSample s.acq raw ts s.stagePos).acquired_spectra.length
          = (processSample s.acq raw ts s.stagePos).stage_values.length
        rw [hsp, hsv]
        simp [hspec]
      · show (processSample s.acq raw ts s.stagePos).timestamps.length
          = (processSample s.acq raw ts s.stagePos).stage_values.length
        rw [htm, hsv]
        simp [hts]
      · intro hfcon
        exact absurd hfcon (by simp [hfc])
      · intro hph
        exact hactive hph
      · intro hph
        exact hready hph
      · intro hph
        exact hdone hph
    · have hf2 : s.acq.request_frog_spectrum = false := by
        revert hf; cases s.acq.request_frog_spectrum <;> simp
      obtain ⟨hsv, hsp, htm, hfc⟩ := processSample_frog_false s.acq raw ts s.stagePos hacq hf2
      refine ⟨?_, ?_, ?_, ?_, ?_, ?_, ?_, ?_, ?_, ?_⟩
      · show (processSample s.acq raw ts s.stagePos).running = true
        rw [processSample_running]; exact hrun
      · show (processSample s.acq raw ts s.stagePos).paused = false
        rw [processSample_paused]; exact hpau
      · show (processSample s.acq raw ts s.stagePos).acquiring = false
        rw [processSample_acquiring]; exact hacq
      · show (processSample s.acq raw ts s.stagePos).stage_values
          = s.positions.take (recordedSteps
              { s with acq := processSample s.acq raw ts s.stagePos })
        have h1 : recordedSteps { s with acq := processSample s.acq raw ts s.stagePos }
            = recordedSteps s := by
          by_cases hw : s.phase = FrogPhase.waiting <;>
            simp [recordedSteps, hw, hfc, hf2]
        rw [h1, hsv]; exact hvals
      · show (processSample s.acq raw ts s.stagePos).acquired_spectra.length
          = (processSample s.acq raw ts s.stagePos).stage_values.length
        rw [hsp, hsv]; exact hspec
      · show (processSample s.acq raw ts s.stagePos).timestamps.length
          = (processSample s.acq raw ts s.stagePos).stage_values.length
        rw [htm, hsv]; exact hts
      · intro hfcon
        exact absurd hfcon (by simp [hfc])
      · intro hph
        exact hactive hph
      · intro hph
        exact hready hph
      · intro hph
        exact hdone hph

theorem frogInv_run (s : FrogState) (tr : List FrogAction) (h : FrogInv s) :
    FrogInv (frogRun s tr) := by
  induction tr generalizing s with
  | nil => exact h
  | cons a rest ih => exact ih (frogStep s a) (frogInv_step s a h)

/-- C1: Along every schedule of the interleaved FROG-scan / acquisition
system started by `start_frog_scan`, the recorded stage positions are exactly
the first `recordedSteps` entries of the requested position list, in step
order, with the spectra and timestamp buffers in one-to-one correspondence;
when the scan reaches its terminal phase there is exactly one record per
requested position; a record can only be appended while the one-shot
`request_frog_spectrum` flag is set (which happens only after a not-moving
poll and the settle wait), and an acquisition cycle that services the flag
appends exactly one (intensities, timestamp, position) triple, clears the
flag, and a following cycle appends nothing. -/
theorem frog_scan_one_record_per_step (positions : List ℚ) (tr : List FrogAction) :
    let s := frogRun (frogInit positions) tr
    s.acq.stage_values = positions.take (recordedSteps s)
    ∧ s.acq.acquired_spectra.length = s.acq.stage_values.length
    ∧ s.acq.timestamps.length = s.acq.stage_values.length
    ∧ (s.phase = FrogPhase.done → s.acq.stage_values = positions)
    ∧ (s.acq.request_frog_spectrum = false →
        ∀ raw ts, (frogStep s (FrogAction.acqCycle raw ts)).acq.stage_values
          = s.acq.stage_values)
    ∧ (s.acq.request_frog_spectrum = true →
        ∀ raw ts,
          (frogStep s (FrogAction.acqCycle raw ts)).acq.stage_values
              = s.acq.stage_values ++ [s.stagePos]
          ∧ (frogStep s (FrogAction.acqCycle raw ts)).acq.request_frog_spectrum = false
          ∧ ∀ raw2 ts2,
              (frogStep (frogStep s (FrogAction.acqCycle raw ts))
                  (FrogAction.acqCycle raw2 ts2)).acq.stage_values
                = (frogStep s (FrogAction.acqCycle raw ts)).acq.stage_values) := by
  intro s
  obtain ⟨hrun, hpau, hacq, hvals, hspec, htms, hflag, hactive, hready, hdone⟩ :=
    frogInv_run (frogInit positions) tr (frogInv_init positions)
  have hpos : s.positions = positions := frogRun_positions (frogInit positions) tr
  refine ⟨?_, hspec, htms, ?_, ?_, ?_⟩
  · rw [← hpos]; exact hvals
  · intro hphase
    have hidx := hdone hphase
    have hrec : recordedSteps s = s.positions.length := by
      unfold recordedSteps
      rw [if_neg]
      · exact hidx
      · rw [hphase]; simp
    rw [← hpos, hvals, hrec, List.take_length]
  · intro hf raw ts
    have hstep : frogStep s (FrogAction.acqCycle raw ts)
        = { s with acq := spectrum_update_body s.acq ⟨some raw, ts, s.stagePos⟩ } := rfl
    have hbody := spectrum_update_body_some s.acq ⟨some raw, ts, s.stagePos⟩ raw hrun hpau rfl
    rw [hstep, hbody]
    exact (processSample_frog_false s.acq raw ts s.stagePos hacq hf).1
  · intro hf raw ts
    have hstep : frogStep s (FrogAction.acqCycle raw ts)
        = { s with acq := spectrum_update_body s.acq ⟨some raw, ts, s.stagePos⟩ } := rfl
    have hbody := spectrum_update_body_some s.acq ⟨some raw, ts, s.stagePos⟩ raw hrun hpau rfl
    obtain ⟨hsv, hsp, htm, hfc⟩ := processSample_frog_true s.acq raw ts s.stagePos hacq hf
    refine ⟨by rw [hstep, hbody]; exact hsv, by rw [hstep, hbody]; exact hfc, ?_⟩
    intro raw2 ts2
    have hrun2 : (frogStep s (FrogAction.acqCycle raw ts)).acq.running = true := by
      rw [hstep, hbody, processSample_running]; exact hrun
    have hpau2 : (frogStep s (FrogAction.acqCycle raw ts)).acq.paused = false := by
      rw [hstep, hbody, processSample_paused]; exact hpau
    have hacq2 : (frogStep s (FrogAction.acqCycle raw ts)).acq.acquiring = false := by
      rw [hstep, hbody, processSample_acquiring]; exact hacq
    have hfc2 : (frogStep s (FrogAction.acqCycle raw ts)).acq.request_frog_spectrum
        = false := by rw [hstep, hbody]; exact hfc
    have hstep2 : frogStep (frogStep s (FrogAction.acqCycle raw ts))
        (FrogAction.acqCycle raw2 ts2)
        = { frogStep s (FrogAction.acqCycle raw ts) with
            acq := spectrum_update_body (frogStep s (FrogAction.acqCycle raw ts)).acq
              ⟨some raw2, ts2, (frogStep s (FrogAction.acqCycle raw ts)).stagePos⟩ } := rfl
    have hbody2 := spectrum_update_body_some (frogStep s (FrogAction.acqCycle raw ts)).acq
      ⟨some raw2, ts2, (frogStep s (FrogAction.acqCycle raw ts)).stagePos⟩ raw2 hrun2 hpau2 rfl
    rw [hstep2, hbody2]
    exact (processSample_frog_false (frogStep s (FrogAction.acqCycle raw ts)).acq raw2 ts2
      (frogStep s (FrogAction.acqCycle raw ts)).stagePos hacq2 hfc2).1

/-- Witness for C1 on a one-position scan: after move, stop-observation and
settle, and the flag raise, the flag is set; the next acquisition cycle
appends exactly the settled position; running the full schedule to the
terminal phase leaves exactly one record, `[1]`. -/
theorem frog_scan_one_record_per_step_witness :
    (frogRun (frogInit [1])
        [FrogAction.move, FrogAction.stopObserved,
         FrogAction.setFlag]).acq.request_frog_spectrum = true
    ∧ (frogStep (frogRun (frogInit [1])
          [FrogAction.move, FrogAction.stopObserved, FrogAction.setFlag])
          (FrogAction.acqCycle [9] 0)).acq.stage_values
        = (frogRun (frogInit [1])
            [FrogAction.move, FrogAction.stopObserved,
             FrogAction.setFlag]).acq.stage_values
          ++ [(frogRun (frogInit [1])
            [FrogAction.move, FrogAction.stopObserved, FrogAction.setFlag]).stagePos]
    ∧ (frogRun (frogInit [1])
        [FrogAction.move, FrogAction.stopObserved, FrogAction.setFlag,
         FrogAction.acqCycle [9] 0, FrogAction.advance]).phase = FrogPhase.done
    ∧ (frogRun (frogInit [1])
        [FrogAction.move, FrogAction.stopObserved, FrogAction.setFlag,
         FrogAction.acqCycle [9] 0, FrogAction.advance]).acq.stage_values = [1] := by
  refine ⟨rfl, ?_, rfl, ?_⟩
  · exact ((frog_scan_one_record_per_step [1]
      [FrogAction.move, FrogAction.stopObserved, FrogAction.setFlag]).2.2.2.2.2
        rfl [9] 0).1
  · exact (frog_scan_one_record_per_step [1]
      [FrogAction.move, FrogAction.stopObserved, FrogAction.setFlag,
       FrogAction.acqCycle [9] 0, FrogAction.advance]).2.2.2.1 rfl

end SpecApp
